/-
  Verification of the BookMe availability & booking engine.

  Shallow embedding of:
  - `src/services/calendar.ts` : `calculateSlots`, `getTimezoneOffsetMs`
  - `src/routes/bookings.ts`   : `handleBookingsRoutes.create`
  - `src/services/crypto.ts`   : `encrypt` / `decrypt` (AES-GCM wrapper)

  Conventions of the embedding:
  - Instants are epoch milliseconds, as `Int` (JS `Date.getTime()`).
  - An IANA timezone is modelled by its offset-from-UTC function
    `Int → Int` (instant ↦ offset in ms, positive east of UTC); this is
    exactly the information `Intl.DateTimeFormat(..., {timeZone})` uses.
  - The host process's local timezone (which affects `new Date(s)` for a
    string `s` without a `Z`/offset designator) is modelled as a constant
    offset `hostOff` in ms; on Cloudflare Workers `hostOff = 0` (UTC).
  - A calendar date string `"YYYY-MM-DD"` is represented by `dateW : Int`,
    the epoch ms of `Date.UTC(Y, M-1, D, 0, 0, 0)` (midnight of that date
    on a UTC clock); JS parses `dateStr + "T00:00:00"` as host-local time,
    i.e. to the instant `dateW - hostOff`.
-/
import Mathlib

namespace BookMe

/-! ### Civil-time helpers (UTC clock arithmetic on epoch ms) -/

/-- Day of week (0 = Sunday .. 6 = Saturday) of an instant read on a UTC
clock. Epoch day 0 (1970-01-01) was a Thursday (= 4). -/
def weekdayUTC (t : Int) : Nat :=
  (((t / 86400000) + 4) % 7).toNat

/-- Hour-of-day (0..23) of an instant read on a UTC clock. -/
def hourUTC (t : Int) : Nat :=
  ((t / 3600000) % 24).toNat

/-- Minute-of-hour (0..59) of an instant read on a UTC clock. -/
def minuteUTC (t : Int) : Nat :=
  ((t / 60000) % 60).toNat

/-- `getTimezoneOffsetMs(tz, date)` from `src/services/calendar.ts:170`.
The source formats the instant in `tz` (yielding the civil fields of
`date.getTime() + tz(date)`, at second granularity — `formatToParts`
carries no milliseconds), rebuilds `Date.UTC(...)` from those fields and
subtracts `date.getTime()`.  Rebuilding the civil fields is exact except
for the dropped milliseconds, hence the flooring to a whole second. -/
def getTimezoneOffsetMs (tz : Int → Int) (t : Int) : Int :=
  1000 * ((t + tz t) / 1000) - t

/-! ### Data model (`src/types.ts`) -/

/-- `CalendarEvent` (`src/types.ts:50`): a busy period fetched from the
calendar, with `start`/`end` already parsed to instants (the ISO strings
Google returns carry an offset designator, so their parse is
host-independent). -/
structure CalendarEvent where
  startMs : Int
  endMs : Int
  isAllDay : Bool
deriving DecidableEq, Repr

/-- Tenant `Settings` (`src/types.ts:25`), restricted to the fields
`calculateSlots` reads.  `timezone` is the resolved IANA zone's offset
function (after the `settings.timezone || 'Asia/Tokyo'` defaulting). -/
structure Settings where
  duration : Nat
  startHour : Nat
  endHour : Nat
  timezone : Int → Int
  availableDays : List Nat

/-- `TimeSlot` (`src/types.ts:57`); `startMs`/`endMs` stand for the ISO
instant strings `start`/`end`. -/
structure TimeSlot where
  startMs : Int
  endMs : Int
  startHour : Nat
  startMinute : Nat
  endHour : Nat
  endMinute : Nat
  available : Bool
  isPast : Bool
  isBusy : Bool
deriving DecidableEq, Repr

/-! ### `calculateSlots` (`src/services/calendar.ts:90-168`) -/

/-- The day-of-week gate value of `calculateSlots`
(`calendar.ts:96-103`): the date string is parsed at host-local midnight
(`new Date(dateStr + 'T00:00:00')`, instant `dateW - hostOff`) and that
instant's weekday is read in the tenant timezone. -/
def gateWeekday (dateW : Int) (tz : Int → Int) (hostOff : Int) : Nat :=
  weekdayUTC ((dateW - hostOff) + tz (dateW - hostOff))

/-- `slotStart` of `calculateSlots` (`calendar.ts:112-116`):
`\x7bdateStr\x7dT\x7bstartHour\x7d:00:00` parsed host-locally, then shifted by the
tenant offset sampled at that (host-local) instant. -/
def windowStartMs (dateW : Int) (s : Settings) (hostOff : Int) : Int :=
  let L := dateW + (s.startHour : Int) * 3600000 - hostOff
  L - getTimezoneOffsetMs s.timezone L

/-- `slotEnd` of `calculateSlots` (`calendar.ts:113-117`): note the source
subtracts the offset sampled at the window *start*, not at the end. -/
def windowEndMs (dateW : Int) (s : Settings) (hostOff : Int) : Int :=
  let L := dateW + (s.startHour : Int) * 3600000 - hostOff
  (dateW + (s.endHour : Int) * 3600000 - hostOff) - getTimezoneOffsetMs s.timezone L

/-- Number of iterations of the loop `while (current + durationMs <= endTime)`
(`calendar.ts:133`) started at `current = wStart`: for `durMs > 0` the loop
runs exactly `max 0 ⌊(wEnd - wStart) / durMs⌋` times (iteration `i` is
admitted iff `wStart + (i+1)·durMs ≤ wEnd`); `durMs ≤ 0` would not
terminate in the source and never arises (`duration : Nat`, guarded). -/
def slotCount (wStart wEnd durMs : Int) : Nat :=
  if durMs ≤ 0 then 0 else ((wEnd - wStart) / durMs).toNat

/-- Loop body of `calculateSlots` (`calendar.ts:133-165`) at
`current = cur`: classification plus civil-field formatting of the two
instants in the tenant timezone. -/
def mkSlot (tz : Int → Int) (busy : List CalendarEvent) (hasAllDay : Bool)
    (durMs now cur : Int) : TimeSlot :=
  let curEnd := cur + durMs
  let isPast := decide (cur < now)
  let isConflict :=
    hasAllDay || busy.any (fun b => decide (cur < b.endMs) && decide (curEnd > b.startMs))
  { startMs := cur
    endMs := curEnd
    startHour := hourUTC (cur + tz cur)
    startMinute := minuteUTC (cur + tz cur)
    endHour := hourUTC (curEnd + tz curEnd)
    endMinute := minuteUTC (curEnd + tz curEnd)
    available := !isConflict && !isPast
    isPast := isPast
    isBusy := isConflict }

/-- `calculateSlots(dateStr, events, settings)`
(`src/services/calendar.ts:90-168`), with the two ambient inputs made
explicit: `hostOff` (host-local timezone offset, governing `new Date` on
designator-less strings) and `now` (`Date.now()`). -/
def calculateSlots (dateW : Int) (events : List CalendarEvent) (s : Settings)
    (hostOff : Int) (now : Int) : List TimeSlot :=
  if s.availableDays.contains (gateWeekday dateW s.timezone hostOff) then
    let wStart := windowStartMs dateW s hostOff
    let wEnd := windowEndMs dateW s hostOff
    let hasAllDay := events.any (·.isAllDay)
    let durMs := (s.duration : Int) * 60000
    (List.range (slotCount wStart wEnd durMs)).map
      (fun (i : Nat) => mkSlot s.timezone events hasAllDay durMs now (wStart + (i : Int) * durMs))
  else []

/-! ### Booking creation (`src/routes/bookings.ts:17-126`)

The handler is embedded as a pure function from the request body plus an
oracle of upstream outcomes (`BookingDeps`) to the HTTP response it
returns together with the ordered trace of side-effecting calls it makes.
`Except`-valued oracle fields stand for awaited calls that may throw. -/

/-- Parsed booking request body (`BookingRequest`, `src/types.ts:70`).
A field is `none` when it is absent or JS-falsy (the source guards with
`!body.x`, so the empty string counts as missing). `startTime`/`endTime`
carry the parsed instants (`new Date(body.startTime).getTime()`). -/
structure BookingBody where
  startTime : Option Int
  endTime : Option Int
  name : Option String
  email : Option String

/-- Outcomes of the upstream calls the handler awaits, in source order:
user lookup, settings (`calendarId` truthiness), token decrypt+refresh,
busy-period listing, calendar-event creation, booking insert, and whether
the email branch is configured (`settings.ownerEmail && env.RESEND_API_KEY`). -/
structure BookingDeps where
  userFound : Bool
  calendarConfigured : Bool
  now : Int
  tokenOk : Bool
  listBusyResult : Except Unit (List CalendarEvent)
  createEventResult : Except Unit String
  insertResult : Except Unit Unit
  emailConfigured : Bool

/-- The distinguishable responses of `handleBookingsRoutes.create`:
each constructor is one `return jsonResponse(...)` site (or, for
`unhandledException`, an exception escaping the handler into the global
catch of `src/index.ts`). -/
inductive BResp
  /-- 400 `必要な項目を入力してください。` (`bookings.ts:21`) -/
  | missingFields
  /-- 404 `ユーザーが見つかりません。` (`bookings.ts:26`) -/
  | userNotFound
  /-- 400 `カレンダーが設定されていません。` (`bookings.ts:31`) -/
  | calendarNotConfigured
  /-- 400 `過去の日時は予約できません。` (`bookings.ts:38`) -/
  | pastDate
  /-- 409 `このスロットは既に予約されています。…` (`bookings.ts:54-57`) -/
  | slotConflict
  /-- 500 `予約の作成中にエラーが発生しました。…` — the single catch-all
  (`bookings.ts:119-125`) -/
  | serverError
  /-- 200 success (`bookings.ts:115-118`) -/
  | success
  /-- an exception thrown before the `try` block (decrypt, token refresh
  or `getCalendarEvents` failure) escapes `create` (`bookings.ts:42-51`) -/
  | unhandledException
deriving DecidableEq, Repr

/-- Side-effecting upstream calls, recorded in the order the handler
issues them. -/
inductive BEffect
  /-- `getCalendarEvents(..., start.toISOString(), end.toISOString())`
  (`bookings.ts:46-51`) — the queried range is recorded. -/
  | listBusy (timeMin timeMax : Int)
  /-- `createCalendarEvent(...)` (`bookings.ts:66-74`) -/
  | createEvent (startMs endMs : Int)
  /-- `insertBooking(...)` (`bookings.ts:80-90`) — the call being issued;
  a record is persisted iff the call also succeeds. -/
  | insertBooking
  /-- `sendOwnerNotification` (`bookings.ts:95-99`) -/
  | sendOwnerEmail
  /-- `sendBookerConfirmation` (`bookings.ts:105-109`) -/
  | sendBookerEmail
deriving DecidableEq, Repr

/-- `handleBookingsRoutes.create` (`src/routes/bookings.ts:17-126`) as a
pure function: response plus effect trace.  Control flow mirrors the
source line by line; the `try` block's catch maps any `createEvent` or
`insertBooking` failure to the one generic `serverError` response, while
email failures are swallowed inside their own nested `try`s (so they do
not affect response or trace shape beyond the attempt itself). -/
def bookingCreate (body : BookingBody) (deps : BookingDeps) : BResp × List BEffect :=
  match body.startTime, body.endTime, body.name, body.email with
  | some start, some «end», some _, some _ =>
    if !deps.userFound then (.userNotFound, [])
    else if !deps.calendarConfigured then (.calendarNotConfigured, [])
    else if start < deps.now then (.pastDate, [])
    else if !deps.tokenOk then (.unhandledException, [])
    else
      match deps.listBusyResult with
      | .error _ => (.unhandledException, [.listBusy start «end»])
      | .ok events =>
        if events.length > 0 then (.slotConflict, [.listBusy start «end»])
        else
          match deps.createEventResult with
          | .error _ => (.serverError, [.listBusy start «end», .createEvent start «end»])
          | .ok _ =>
            match deps.insertResult with
            | .error _ =>
                (.serverError,
                 [.listBusy start «end», .createEvent start «end», .insertBooking])
            | .ok _ =>
                if deps.emailConfigured then
                  (.success,
                   [.listBusy start «end», .createEvent start «end», .insertBooking,
                    .sendOwnerEmail, .sendBookerEmail])
                else
                  (.success,
                   [.listBusy start «end», .createEvent start «end», .insertBooking])
  | _, _, _, _ => (.missingFields, [])

/-! ### Credential vault (`src/services/crypto.ts`)

Bytes are `Nat` values `< 256` (the contents of a `Uint8Array`); the
base64 transport (`btoa(String.fromCharCode(...))` / `atob`) is embedded
concretely below.  The platform AEAD primitive (`crypto.subtle` AES-GCM
with a PBKDF2-derived key) is not code of this repository; it is modelled
from the spec (§4.1: an authenticated-encryption scheme that decrypts its
own output and rejects anything that does not authenticate) as a bundle
of operations with the idealized AEAD laws, over which the repository's
`encrypt`/`decrypt` wrappers are then defined from the source. -/

/-- The base64 alphabet, index ↦ character. -/
def b64Alphabet : List Char :=
  "ABCDEFGHIJKLMNOPQRSTUVWXYZabcdefghijklmnopqrstuvwxyz0123456789+/".toList

/-- Character of a 6-bit group. -/
def sextetChar (n : Nat) : Char :=
  b64Alphabet.getD n 'A'

/-- Inverse lookup: position of a character in the base64 alphabet
(`none` for a character outside it, e.g. the padding `=`). -/
def charSextet (c : Char) : Option Nat :=
  b64Alphabet.findIdx? (· == c)

/-- `btoa(String.fromCharCode(...bytes))`: standard base64 with `=`
padding, 3 input bytes per 4 output characters. -/
def base64Encode : List Nat → List Char
  | [] => []
  | [a] =>
      [sextetChar (a / 4), sextetChar (a % 4 * 16), '=', '=']
  | [a, b] =>
      [sextetChar (a / 4), sextetChar (a % 4 * 16 + b / 16),
       sextetChar (b % 16 * 4), '=']
  | a :: b :: c :: rest =>
      sextetChar (a / 4) :: sextetChar (a % 4 * 16 + b / 16) ::
      sextetChar (b % 16 * 4 + c / 64) :: sextetChar (c % 64) :: base64Encode rest

/-- `atob` followed by `charCodeAt` per character: decode base64 to bytes,
`none` where `atob` throws (length not a multiple of 4, character outside
the alphabet, or interior padding). -/
def base64Decode : List Char → Option (List Nat)
  | [] => some []
  | c1 :: c2 :: c3 :: c4 :: rest =>
    match charSextet c1, charSextet c2 with
    | some a, some b =>
      if c3 = '=' then
        if c4 = '=' then
          if rest.isEmpty then some [a * 4 + b / 16] else none
        else none
      else
        match charSextet c3 with
        | some c =>
          if c4 = '=' then
            if rest.isEmpty then some [a * 4 + b / 16, b % 16 * 16 + c / 4] else none
          else
            match charSextet c4, base64Decode rest with
            | some d, some tail =>
                some ((a * 4 + b / 16) :: (b % 16 * 16 + c / 4) :: (c % 4 * 64 + d) :: tail)
            | _, _ => none
        | none => none
    | _, _ => none
  | _ => none

/-- Modelled from the spec: the platform AEAD primitive behind
`crypto.subtle` (`deriveKey` PBKDF2 → AES-GCM `encrypt`/`decrypt`), which
is not part of this repository.  Spec §4.1 requires an
authenticated-encryption scheme: it decrypts its own output, a successful
decryption authenticates the exact ciphertext, decryption under a
different key fails, and the ciphertext is plaintext length plus a fixed
16-byte tag (AES-GCM). -/
structure AEAD (Key : Type) where
  derive : String → Key
  enc : Key → List Nat → List Nat → List Nat
  dec : Key → List Nat → List Nat → Option (List Nat)
  dec_enc : ∀ k iv m, dec k iv (enc k iv m) = some m
  auth : ∀ k iv ct m, dec k iv ct = some m → ct = enc k iv m
  keySep : ∀ k k' iv m, k ≠ k' → dec k' iv (enc k iv m) = none
  enc_len : ∀ k iv m, (enc k iv m).length = m.length + 16
  enc_bytes : ∀ k iv m, (∀ x ∈ iv, x < 256) → (∀ x ∈ m, x < 256) →
    ∀ x ∈ enc k iv m, x < 256

/-- `encrypt(plaintext, secret)` (`src/services/crypto.ts:31-48`): derive
the key, AEAD-encrypt under a fresh 12-byte `iv` (the randomness of
`crypto.getRandomValues` is passed in as the `iv` argument), concatenate
`iv ++ ciphertext` and base64-encode.  The plaintext is the UTF-8 byte
list the source obtains via `TextEncoder`. -/
def encrypt {Key : Type} (A : AEAD Key) (plaintext : List Nat) (secret : String)
    (iv : List Nat) : List Char :=
  base64Encode (iv ++ A.enc (A.derive secret) iv plaintext)

/-- `decrypt(encrypted, secret)` (`src/services/crypto.ts:51-65`): derive
the key, base64-decode (`atob` failure propagates), split the first 12
bytes off as the `iv` (`combined.slice(0, 12)` / `combined.slice(12)`)
and AEAD-decrypt the remainder. -/
def decrypt {Key : Type} (A : AEAD Key) (encrypted : List Char) (secret : String) :
    Option (List Nat) :=
  match base64Decode encrypted with
  | none => none
  | some combined => A.dec (A.derive secret) (combined.take 12) (combined.drop 12)

/-! ### A concrete AEAD instance (for evaluating the crypto wrappers)

A toy authenticated-encryption scheme satisfying the idealized laws:
ciphertext = plaintext ++ 16-byte tag determined by the key.  It stands
in for AES-GCM only so that the wrapper theorems can be instantiated and
evaluated on concrete inputs. -/

/-- 16-byte tag of the toy scheme: 15 zero bytes then the key byte. -/
def toyTag (k : Fin 256) : List Nat :=
  List.replicate 15 0 ++ [k.val]

theorem toyTag_length (k : Fin 256) : (toyTag k).length = 16 := by
  simp [toyTag]

theorem toyTag_inj {k k' : Fin 256} (h : toyTag k = toyTag k') : k = k' := by
  simp only [toyTag, List.append_cancel_left_eq, List.cons.injEq, and_true] at h
  exact Fin.ext h

/-- The toy AEAD instance. -/
def toyAEAD : AEAD (Fin 256) where
  derive s := ⟨s.length % 256, Nat.mod_lt _ (by omega)⟩
  enc k _iv m := m ++ toyTag k
  dec k _iv c :=
    if 16 ≤ c.length ∧ c.drop (c.length - 16) = toyTag k then
      some (c.take (c.length - 16))
    else none
  dec_enc := by
    intro k iv m
    have hlen : (m ++ toyTag k).length = m.length + 16 := by simp [toyTag]
    dsimp only
    rw [if_pos]
    · rw [hlen, Nat.add_sub_cancel, List.take_left]
    · refine ⟨by omega, ?_⟩
      rw [hlen, Nat.add_sub_cancel, List.drop_left]
  auth := by
    intro k iv c m h
    dsimp only at h
    split at h
    · rename_i hcond
      obtain ⟨hlen, hdrop⟩ := hcond
      have hm : c.take (c.length - 16) = m := Option.some.inj h
      conv_lhs => rw [← List.take_append_drop (c.length - 16) c]
      rw [hdrop, hm]
    · exact Option.noConfusion h
  keySep := by
    intro k k' iv m hne
    dsimp only
    rw [if_neg]
    rintro ⟨hlen, hdrop⟩
    have hd : (m ++ toyTag k).drop ((m ++ toyTag k).length - 16) = toyTag k := by
      have hlen2 : (m ++ toyTag k).length = m.length + 16 := by simp [toyTag]
      rw [hlen2, Nat.add_sub_cancel, List.drop_left]
    rw [hd] at hdrop
    exact hne (toyTag_inj hdrop)
  enc_len := by
    intro k iv m
    simp [toyTag]
  enc_bytes := by
    intro k iv m _hiv hm x hx
    rcases List.mem_append.mp hx with h | h
    · exact hm x h
    · rcases List.mem_append.mp h with h2 | h2
      · have := List.eq_of_mem_replicate h2
        omega
      · simp at h2
        omega

/-! ### Concrete fixtures used by witnesses and counterexamples -/

/-- Model of `Asia/Tokyo`: constant offset UTC+9 (Japan observes no DST). -/
def tzTokyo : Int → Int := fun _ => 32400000

/-- Model of a UTC−5 zone in winter (e.g. `America/New_York` in February). -/
def tzNewYork : Int → Int := fun _ => -18000000

/-- 2026-02-18 (a Wednesday), as epoch ms of its UTC midnight. -/
def dateWed : Int := 1771372800000

/-- 2026-02-15 (a Sunday), as epoch ms of its UTC midnight. -/
def dateSun : Int := 1771113600000

/-- The spec §8 end-to-end tenant: 09:00–17:00, 60-minute slots,
weekdays only, `Asia/Tokyo`. -/
def stdSettings : Settings :=
  { duration := 60, startHour := 9, endHour := 17, timezone := tzTokyo,
    availableDays := [1, 2, 3, 4, 5] }

/-- A Saturday-only tenant in a UTC−5 zone. -/
def satOnlySettings : Settings :=
  { duration := 60, startHour := 9, endHour := 17, timezone := tzNewYork,
    availableDays := [6] }

/-- A Sunday-only tenant in a UTC−5 zone. -/
def sunOnlySettings : Settings :=
  { duration := 60, startHour := 9, endHour := 17, timezone := tzNewYork,
    availableDays := [0] }

/-- One timed busy period 10:00–11:00 JST on `dateWed`. -/
def busyWed : List CalendarEvent :=
  [{ startMs := dateWed + 3600000, endMs := dateWed + 7200000, isAllDay := false }]

/-- The 10:00–11:00 JST slot of `dateWed` as `calculateSlots` builds it
against `busyWed` (evaluated; membership is checked by `decide`). -/
def slotBusyWed : TimeSlot :=
  { startMs := dateWed + 3600000, endMs := dateWed + 7200000,
    startHour := 10, startMinute := 0, endHour := 11, endMinute := 0,
    available := false, isPast := false, isBusy := true }

/-- A well-formed booking body: start instant 1000, end 2000. -/
def bodyStd : BookingBody :=
  { startTime := some 1000, endTime := some 2000,
    name := some "Alice", email := some "alice at example" }

/-- Oracle: everything succeeds, no busy periods, `now = 1000` (so the
requested start equals the evaluation instant exactly). -/
def depsBoundary : BookingDeps :=
  { userFound := true, calendarConfigured := true, now := 1000, tokenOk := true,
    listBusyResult := .ok [], createEventResult := .ok "evt1",
    insertResult := .ok (), emailConfigured := false }

/-- Oracle: the conflict re-check returns one busy period. -/
def depsConflict : BookingDeps :=
  { userFound := true, calendarConfigured := true, now := 0, tokenOk := true,
    listBusyResult := .ok [{ startMs := 1000, endMs := 2000, isAllDay := false }],
    createEventResult := .ok "evt1", insertResult := .ok (), emailConfigured := false }

/-- Oracle: the calendar write fails. -/
def depsCreateFail : BookingDeps :=
  { userFound := true, calendarConfigured := true, now := 0, tokenOk := true,
    listBusyResult := .ok [], createEventResult := .error (),
    insertResult := .ok (), emailConfigured := false }

/-- Oracle: the calendar write succeeds but the booking insert fails. -/
def depsInsertFail : BookingDeps :=
  { userFound := true, calendarConfigured := true, now := 0, tokenOk := true,
    listBusyResult := .ok [], createEventResult := .ok "evt1",
    insertResult := .error (), emailConfigured := false }

/-- Booking body for the C10 scenario: Sunday 03:00–03:07 JST on
`dateSun` (03:00 JST = `dateSun − 6h` UTC), a 7-minute interval. -/
def bodyOffHours : BookingBody :=
  { startTime := some (dateSun - 21600000), endTime := some (dateSun - 21600000 + 420000),
    name := some "Bob", email := some "bob at example" }

/-- Oracle for the C10 scenario: all upstream calls succeed and the
conflict re-check returns no busy periods. -/
def depsAllOk : BookingDeps :=
  { userFound := true, calendarConfigured := true, now := 0, tokenOk := true,
    listBusyResult := .ok [], createEventResult := .ok "evt1",
    insertResult := .ok (), emailConfigured := true }

/-- A 12-byte iv of zeroes (a fixed draw of `crypto.getRandomValues`). -/
def ivZero : List Nat := List.replicate 12 0

/-- "hello" as UTF-8 bytes. -/
def msgHello : List Nat := [104, 101, 108, 108, 111]

/-! ### Proofs -/

/-- Alphabet inversion on the 64 valid sextets (checked by evaluation). -/
theorem charSextet_sextetChar_fin :
    ∀ n : Fin 64, charSextet (sextetChar n.val) = some n.val := by
  decide

theorem charSextet_sextetChar (n : Nat) (h : n < 64) :
    charSextet (sextetChar n) = some n :=
  charSextet_sextetChar_fin ⟨n, h⟩

/-- A data character is never the padding character. -/
theorem sextetChar_ne_pad (n : Nat) (h : n < 64) : sextetChar n ≠ '=' := by
  intro heq
  have h1 : charSextet (sextetChar n) = some n := charSextet_sextetChar n h
  rw [heq] at h1
  exact Option.noConfusion h1

/-- The base64 transport is lossless on byte lists. -/
theorem base64_roundTrip :
    ∀ l : List Nat, (∀ x ∈ l, x < 256) → base64Decode (base64Encode l) = some l
  | [], _ => rfl
  | [a], h => by
      have ha : a < 256 := h a (by simp)
      simp only [base64Encode, base64Decode,
        charSextet_sextetChar (a / 4) (by omega),
        charSextet_sextetChar (a % 4 * 16) (by omega)]
      simp only [if_pos rfl, List.isEmpty_nil, if_true]
      congr 2
      omega
  | [a, b], h => by
      have ha : a < 256 := h a (by simp)
      have hb : b < 256 := h b (by simp)
      simp only [base64Encode, base64Decode,
        charSextet_sextetChar (a / 4) (by omega),
        charSextet_sextetChar (a % 4 * 16 + b / 16) (by omega),
        charSextet_sextetChar (b % 16 * 4) (by omega)]
      rw [if_neg (sextetChar_ne_pad (b % 16 * 4) (by omega))]
      simp only [if_pos rfl, List.isEmpty_nil, if_true]
      congr 1
      have e1 : a / 4 * 4 + (a % 4 * 16 + b / 16) / 16 = a := by omega
      have e2 : (a % 4 * 16 + b / 16) % 16 * 16 + b % 16 * 4 / 4 = b := by omega
      rw [e1, e2]
  | a :: b :: c :: rest, h => by
      have ha : a < 256 := h a (by simp)
      have hb : b < 256 := h b (by simp)
      have hc : c < 256 := h c (by simp)
      have ih : base64Decode (base64Encode rest) = some rest :=
        base64_roundTrip rest (fun x hx => h x (by simp [hx]))
      simp only [base64Encode, base64Decode,
        charSextet_sextetChar (a / 4) (by omega),
        charSextet_sextetChar (a % 4 * 16 + b / 16) (by omega),
        charSextet_sextetChar (b % 16 * 4 + c / 64) (by omega),
        charSextet_sextetChar (c % 64) (by omega)]
      rw [if_neg (sextetChar_ne_pad (b % 16 * 4 + c / 64) (by omega)),
          if_neg (sextetChar_ne_pad (c % 64) (by omega))]
      rw [ih]
      have e1 : a / 4 * 4 + (a % 4 * 16 + b / 16) / 16 = a := by omega
      have e2 : (a % 4 * 16 + b / 16) % 16 * 16 + (b % 16 * 4 + c / 64) / 4 = b := by omega
      have e3 : (b % 16 * 4 + c / 64) % 4 * 64 + c % 64 = c := by omega
      simp only [e1, e2, e3]

/-- The business-hours window always spans exactly
`(endHour − startHour)` hours of absolute time: the source subtracts the
same offset (sampled at the window start) from both bounds. -/
theorem window_span (dateW : Int) (s : Settings) (hostOff : Int) :
    windowEndMs dateW s hostOff - windowStartMs dateW s hostOff
      = ((s.endHour : Int) - (s.startHour : Int)) * 3600000 := by
  simp only [windowStartMs, windowEndMs, getTimezoneOffsetMs]
  ring

/-- Loop characterization: for a positive duration, iteration `i` of
`while (current + durationMs <= endTime)` is admitted exactly when
`i < slotCount`. -/
theorem slotCount_iff (wStart wEnd durMs : Int) (hd : 0 < durMs) (i : Nat) :
    i < slotCount wStart wEnd durMs ↔ wStart + i * durMs + durMs ≤ wEnd := by
  simp only [slotCount, if_neg (not_le.mpr hd)]
  rw [Int.lt_toNat]
  constructor
  · intro h
    have h1 : (i : Int) + 1 ≤ (wEnd - wStart) / durMs := by omega
    have h2 : ((i : Int) + 1) * durMs ≤ wEnd - wStart :=
      (Int.le_ediv_iff_mul_le hd).mp h1
    nlinarith
  · intro h
    have h2 : ((i : Int) + 1) * durMs ≤ wEnd - wStart := by nlinarith
    have h1 : (i : Int) + 1 ≤ (wEnd - wStart) / durMs :=
      (Int.le_ediv_iff_mul_le hd).mpr h2
    omega

/-- C1 counterexample: the claim's hypothesis "the date's weekday is
enabled" does not make the count hold — 2026-02-15 *is* a Sunday, the
tenant enables exactly Sunday, and 60 evenly divides the 8-hour window,
yet for a UTC host and a UTC−5 tenant the source's weekday gate resolves
to the previous date's weekday (Saturday, see C7) and returns 0 slots,
not `(17−9)·60/60 = 8`. -/
theorem calculateSlots_count_cex :
    weekdayUTC dateSun = 0
    ∧ sunOnlySettings.availableDays = [0]
    ∧ (sunOnlySettings.endHour - sunOnlySettings.startHour) * 60
        % sunOnlySettings.duration = 0
    ∧ (calculateSlots dateSun [] sunOnlySettings 0 0).length = 0
    ∧ (calculateSlots dateSun [] sunOnlySettings 0 0).length
        ≠ (sunOnlySettings.endHour - sunOnlySettings.startHour) * 60
            / sunOnlySettings.duration := by
  decide

/-- C1 amended: when the slot duration evenly divides the business-hours
window and the date passes the source's weekday *gate* (which, per C7,
can differ from the date's own weekday), `calculateSlots` produces
exactly `(endHour − startHour)·60 / duration` candidate slots, and no
produced slot ends after the window-end instant. -/
theorem calculateSlots_count_boundary
    (dateW : Int) (events : List CalendarEvent) (s : Settings) (hostOff now : Int)
    (hdur : 0 < s.duration)
    (hse : s.startHour ≤ s.endHour)
    (hdvd : s.duration ∣ (s.endHour - s.startHour) * 60)
    (hday : s.availableDays.contains (gateWeekday dateW s.timezone hostOff) = true) :
    (calculateSlots dateW events s hostOff now).length
        = (s.endHour - s.startHour) * 60 / s.duration
    ∧ ∀ t ∈ calculateSlots dateW events s hostOff now,
        t.endMs ≤ windowEndMs dateW s hostOff := by
  have hdms : (0 : Int) < (s.duration : Int) * 60000 := by positivity
  have hspan := window_span dateW s hostOff
  constructor
  · simp only [calculateSlots, hday, if_true, List.length_map, List.length_range]
    simp only [slotCount, if_neg (not_le.mpr hdms)]
    rw [hspan]
    obtain ⟨c, hc⟩ := hdvd
    have h1 : ((s.endHour : Int) - (s.startHour : Int)) * 3600000
        = ((s.duration : Int) * 60000) * c := by
      have : ((s.endHour : Int) - (s.startHour : Int)) * 60 = (s.duration : Int) * c := by
        have := congrArg (fun n : Nat => (n : Int)) hc
        push_cast at this
        rw [Nat.cast_sub hse] at this
        linarith
      linarith
    have h2 : (s.endHour - s.startHour) * 60 / s.duration = c := by
      rw [hc, Nat.mul_div_cancel_left c hdur]
    rw [h1, h2, Int.mul_ediv_cancel_left _ (by omega), Int.toNat_natCast]
  · intro t ht
    simp only [calculateSlots, hday, if_true] at ht
    rcases List.mem_map.mp ht with ⟨i, hi, rfl⟩
    have hiN : i < slotCount (windowStartMs dateW s hostOff) (windowEndMs dateW s hostOff)
        ((s.duration : Int) * 60000) := List.mem_range.mp hi
    have := (slotCount_iff _ _ _ hdms i).mp hiN
    simpa [mkSlot] using this

/-- C1 witness: the §8 end-to-end tenant (09:00–17:00, 60-minute slots,
weekdays, Tokyo) on a Wednesday yields 8 slots, all inside the window. -/
theorem calculateSlots_count_boundary_witness :
    (calculateSlots dateWed [] stdSettings 0 0).length = 8
    ∧ ∀ t ∈ calculateSlots dateWed [] stdSettings 0 0,
        t.endMs ≤ windowEndMs dateWed stdSettings 0 :=
  calculateSlots_count_boundary dateWed [] stdSettings 0 0
    (by decide) (by decide) (by decide) (by decide)

/-- C2: a produced slot is `isBusy` exactly when an all-day busy period
exists, or its half-open interval `[startMs, endMs)` overlaps the
half-open interval of some timed busy period
(`slotStart < busyEnd && slotEnd > busyStart`). -/
theorem calculateSlots_isBusy_iff
    (dateW : Int) (events : List CalendarEvent) (s : Settings) (hostOff now : Int)
    (t : TimeSlot) (ht : t ∈ calculateSlots dateW events s hostOff now) :
    t.isBusy = true ↔
      (∃ e ∈ events, e.isAllDay = true) ∨
      ∃ e ∈ events, e.isAllDay = false ∧ t.startMs < e.endMs ∧ t.endMs > e.startMs := by
  unfold calculateSlots at ht
  split at ht
  · rcases List.mem_map.mp ht with ⟨i, hi, rfl⟩
    simp only [mkSlot, Bool.or_eq_true, List.any_eq_true, Bool.and_eq_true,
      decide_eq_true_eq, gt_iff_lt]
    constructor
    · rintro (hall | ⟨e, he, h1, h2⟩)
      · exact Or.inl hall
      · by_cases hA : e.isAllDay = true
        · exact Or.inl ⟨e, he, hA⟩
        · exact Or.inr ⟨e, he, Bool.not_eq_true _ ▸ hA, h1, h2⟩
    · rintro (⟨e, he, hA⟩ | ⟨e, he, _, h1, h2⟩)
      · exact Or.inl ⟨e, he, hA⟩
      · exact Or.inr ⟨e, he, h1, h2⟩
  · simp at ht

/-- C2 witness: on the standard tenant with one timed busy period
10:00–11:00, the 10:00–11:00 slot is busy, and the classification
coincides with the half-open overlap condition. -/
theorem calculateSlots_isBusy_iff_witness :
    slotBusyWed ∈ calculateSlots dateWed busyWed stdSettings 0 0
    ∧ (slotBusyWed.isBusy = true ↔
        (∃ e ∈ busyWed, e.isAllDay = true) ∨
        ∃ e ∈ busyWed, e.isAllDay = false ∧ slotBusyWed.startMs < e.endMs
          ∧ slotBusyWed.endMs > e.startMs) :=
  ⟨by decide,
   calculateSlots_isBusy_iff dateWed busyWed stdSettings 0 0 slotBusyWed (by decide)⟩

/-- C7: refuted as stated — the weekday gate of `calculateSlots` does not
use the date's own weekday.  2026-02-15 is a Sunday (weekday 0, in every
timezone, `weekdayUTC dateSun = 0`), and the tenant enables only Saturday
(`availableDays = [6]`); yet with the tenant in a UTC−5 zone (and the
host on UTC, as on Cloudflare Workers), the source parses the date at
host-local midnight and reads that instant's weekday in the tenant zone —
landing on Saturday 19:00 of the *previous* civil date — so the gate sees
6, passes, and 8 slots are produced instead of none. -/
theorem calculateSlots_weekdayGate_wrong_day :
    weekdayUTC dateSun = 0
    ∧ satOnlySettings.availableDays = [6]
    ∧ gateWeekday dateSun satOnlySettings.timezone 0 = 6
    ∧ (calculateSlots dateSun [] satOnlySettings 0 0).length = 8
    ∧ calculateSlots dateSun [] satOnlySettings 0 0 ≠ [] := by
  decide

/-- C8: refuted as stated — `calculateSlots` is not independent of the
host process's local timezone.  With identical
`(date, busyPeriods, settings, now)`, a host at UTC and a host at UTC+9
produce different slot lists (the first slot's absolute start instant
shifts by the host offset, because `new Date(dateStr + 'T00:00:00')` and
the window bounds are parsed host-locally). -/
theorem calculateSlots_host_timezone_dependent :
    ((calculateSlots dateWed [] stdSettings 0 0).map TimeSlot.startMs).head?
        = some 1771372800000
    ∧ ((calculateSlots dateWed [] stdSettings 32400000 0).map TimeSlot.startMs).head?
        = some 1771340400000
    ∧ calculateSlots dateWed [] stdSettings 0 0
        ≠ calculateSlots dateWed [] stdSettings 32400000 0 := by
  decide

/-- C3: whenever the conflict re-check returns a non-empty busy list, the
request fails with the slot-conflict response and neither the
calendar-event creation call nor the booking insert is ever made; the
re-check itself is issued for exactly the requested `[start, end)`. -/
theorem bookingCreate_conflict_no_write
    (body : BookingBody) (deps : BookingDeps) (events : List CalendarEvent)
    (hbusy : deps.listBusyResult = .ok events) (hne : events ≠ []) :
    (∀ a b, BEffect.createEvent a b ∉ (bookingCreate body deps).2)
    ∧ BEffect.insertBooking ∉ (bookingCreate body deps).2
    ∧ ∀ a b, BEffect.listBusy a b ∈ (bookingCreate body deps).2 →
        (bookingCreate body deps).1 = .slotConflict
        ∧ body.startTime = some a ∧ body.endTime = some b := by
  have hlen : 0 < events.length := List.length_pos.mpr hne
  have hmain : (bookingCreate body deps).2 = [] ∨
      ∃ a b, bookingCreate body deps = (.slotConflict, [.listBusy a b])
        ∧ body.startTime = some a ∧ body.endTime = some b := by
    obtain ⟨st, et, nm, em⟩ := body
    rcases st with _ | start
    · exact Or.inl rfl
    rcases et with _ | endv
    · exact Or.inl rfl
    rcases nm with _ | name
    · exact Or.inl rfl
    rcases em with _ | email
    · exact Or.inl rfl
    simp only [bookingCreate, hbusy, gt_iff_lt, if_pos hlen]
    split_ifs with h1 h2 h3 h4
    · exact Or.inl rfl
    · exact Or.inl rfl
    · exact Or.inl rfl
    · exact Or.inl rfl
    · exact Or.inr ⟨start, endv, rfl, rfl, rfl⟩
  rcases hmain with h | ⟨a, b, h, ha, hb⟩
  · refine ⟨?_, ?_, ?_⟩ <;> simp [h]
  · refine ⟨?_, ?_, ?_⟩
    · simp [h]
    · simp [h]
    · intro a' b' hmem
      rw [h] at hmem
      simp only [List.mem_singleton] at hmem
      cases hmem
      exact ⟨by simp [h], ha, hb⟩

/-- C3 witness: a concrete execution whose conflict re-check returns one
busy period fails with the conflict response, makes no calendar write,
and persists nothing. -/
theorem bookingCreate_conflict_no_write_witness :
    ((bookingCreate bodyStd depsConflict).1 = .slotConflict
      ∧ bodyStd.startTime = some 1000 ∧ bodyStd.endTime = some 2000)
    ∧ BEffect.insertBooking ∉ (bookingCreate bodyStd depsConflict).2
    ∧ BEffect.createEvent 1000 2000 ∉ (bookingCreate bodyStd depsConflict).2 :=
  ⟨(bookingCreate_conflict_no_write bodyStd depsConflict _ rfl (by decide)).2.2
      1000 2000 (by decide),
   (bookingCreate_conflict_no_write bodyStd depsConflict _ rfl (by decide)).2.1,
   (bookingCreate_conflict_no_write bodyStd depsConflict _ rfl (by decide)).1 1000 2000⟩

/-- C4: whenever the calendar-event creation call fails, the transaction
answers with the failure response and the booking insert is never
executed — no booking record can exist without a created calendar
event. -/
theorem bookingCreate_createFail_no_persist
    (body : BookingBody) (deps : BookingDeps)
    (hfail : deps.createEventResult = .error ()) :
    BEffect.insertBooking ∉ (bookingCreate body deps).2
    ∧ ∀ a b, BEffect.createEvent a b ∈ (bookingCreate body deps).2 →
        (bookingCreate body deps).1 = .serverError := by
  have hmain : (bookingCreate body deps).2 = [] ∨
      (∃ a b, bookingCreate body deps = (.unhandledException, [.listBusy a b])) ∨
      (∃ a b, bookingCreate body deps = (.slotConflict, [.listBusy a b])) ∨
      (∃ a b, bookingCreate body deps
          = (.serverError, [.listBusy a b, .createEvent a b])) := by
    obtain ⟨st, et, nm, em⟩ := body
    rcases st with _ | start
    · exact Or.inl rfl
    rcases et with _ | endv
    · exact Or.inl rfl
    rcases nm with _ | name
    · exact Or.inl rfl
    rcases em with _ | email
    · exact Or.inl rfl
    simp only [bookingCreate, hfail]
    split_ifs with h1 h2 h3 h4
    · exact Or.inl rfl
    · exact Or.inl rfl
    · exact Or.inl rfl
    · exact Or.inl rfl
    cases hlb : deps.listBusyResult with
    | error e => exact Or.inr (Or.inl ⟨start, endv, rfl⟩)
    | ok events =>
        dsimp only
        by_cases hlvl : events.length > 0
        · rw [if_pos hlvl]
          exact Or.inr (Or.inr (Or.inl ⟨start, endv, rfl⟩))
        · rw [if_neg hlvl]
          exact Or.inr (Or.inr (Or.inr ⟨start, endv, rfl⟩))
  rcases hmain with h | ⟨a, b, h⟩ | ⟨a, b, h⟩ | ⟨a, b, h⟩ <;>
    refine ⟨?_, ?_⟩ <;> simp [h]

/-- C4 witness: a concrete execution whose calendar write fails returns
the failure response and never runs the insert. -/
theorem bookingCreate_createFail_no_persist_witness :
    BEffect.insertBooking ∉ (bookingCreate bodyStd depsCreateFail).2
    ∧ (bookingCreate bodyStd depsCreateFail).1 = .serverError :=
  ⟨(bookingCreate_createFail_no_persist bodyStd depsCreateFail rfl).1,
   (bookingCreate_createFail_no_persist bodyStd depsCreateFail rfl).2
      1000 2000 (by decide)⟩

/-- C6 counterexample: the claim requires a request whose start *equals*
the evaluation instant to be rejected as a past date; the source guards
with a strict `start.getTime() < Date.now()`, so such a request is
accepted and proceeds all the way to success. -/
theorem bookingCreate_pastDate_boundary_cex :
    bodyStd.startTime = some depsBoundary.now
    ∧ (bookingCreate bodyStd depsBoundary).1 = .success
    ∧ (bookingCreate bodyStd depsBoundary).1 ≠ .pastDate := by
  decide

/-- C6 amended: the handler rejects with the validation failure iff a
required field (start, end, name, email) is missing, and — once the
fields are present and the user/calendar gates pass — rejects with the
past-date failure iff the requested start is strictly *before* the
evaluation instant (a start equal to `now` is accepted). -/
theorem bookingCreate_validation_pastDate
    (body : BookingBody) (deps : BookingDeps) :
    ((bookingCreate body deps).1 = .missingFields ↔
      body.startTime = none ∨ body.endTime = none
        ∨ body.name = none ∨ body.email = none)
    ∧ ∀ start, body.startTime = some start → body.endTime ≠ none →
        body.name ≠ none → body.email ≠ none →
        deps.userFound = true → deps.calendarConfigured = true →
        ((bookingCreate body deps).1 = .pastDate ↔ start < deps.now) := by
  obtain ⟨st, et, nm, em⟩ := body
  constructor
  · rcases st with _ | start
    · simp [bookingCreate]
    rcases et with _ | endv
    · simp [bookingCreate]
    rcases nm with _ | name
    · simp [bookingCreate]
    rcases em with _ | email
    · simp [bookingCreate]
    simp only [bookingCreate]
    constructor
    · intro h
      exfalso
      revert h
      repeat' split
      all_goals intro h
      all_goals simp at h
    · rintro (h | h | h | h) <;> simp at h
  · intro start hst het hnm hem hu hc
    simp only at hst
    subst hst
    rcases et with _ | endv
    · exact absurd rfl het
    rcases nm with _ | name
    · exact absurd rfl hnm
    rcases em with _ | email
    · exact absurd rfl hem
    simp only [bookingCreate, hu, hc, Bool.not_true, Bool.false_eq_true, if_false]
    by_cases hpast : start < deps.now
    · simp [hpast]
    · simp only [if_neg hpast]
      rw [iff_false_intro hpast]
      simp only [iff_false]
      intro h
      revert h
      repeat' split
      all_goals intro h
      all_goals simp at h

/-- C6 witness: on a concrete request with all fields present and
`start = now`, the validation iff is false on both sides and the
past-date iff reduces to `1000 < 1000`. -/
theorem bookingCreate_validation_pastDate_witness :
    ((bookingCreate bodyStd depsBoundary).1 = .missingFields ↔
      bodyStd.startTime = none ∨ bodyStd.endTime = none
        ∨ bodyStd.name = none ∨ bodyStd.email = none)
    ∧ ((bookingCreate bodyStd depsBoundary).1 = .pastDate ↔
        (1000 : Int) < depsBoundary.now) :=
  ⟨(bookingCreate_validation_pastDate bodyStd depsBoundary).1,
   (bookingCreate_validation_pastDate bodyStd depsBoundary).2 1000 rfl
      (by decide) (by decide) (by decide) rfl rfl⟩

/-- C9 counterexample: a persistence failure after a successful calendar
write is answered by the same generic 500 response as a calendar-write
failure — the two are not distinguishable in the transaction's result
(the source has a single catch-all, no distinct `PersistenceError`). -/
theorem bookingCreate_persistFail_indistinguishable_cex :
    depsInsertFail.createEventResult = .ok "evt1"
    ∧ depsInsertFail.insertResult = .error ()
    ∧ depsCreateFail.createEventResult = .error ()
    ∧ (bookingCreate bodyStd depsInsertFail).1 = .serverError
    ∧ (bookingCreate bodyStd depsCreateFail).1 = .serverError
    ∧ (bookingCreate bodyStd depsInsertFail).1
        = (bookingCreate bodyStd depsCreateFail).1 :=
  ⟨rfl, rfl, rfl, rfl, rfl, rfl⟩

/-- C9 amended: when the insert fails after a successful calendar write,
the transaction never reports success, answers with the same generic
server-error response as any other `try`-block failure, and does not
retry the insert (at most one insert attempt appears in the trace). -/
theorem bookingCreate_insertFail_behavior
    (body : BookingBody) (deps : BookingDeps) (eid : String)
    (hce : deps.createEventResult = .ok eid)
    (hins : deps.insertResult = .error ()) :
    (bookingCreate body deps).1 ≠ .success
    ∧ (BEffect.insertBooking ∈ (bookingCreate body deps).2 →
        (bookingCreate body deps).1 = .serverError)
    ∧ (bookingCreate body deps).2.count .insertBooking ≤ 1 := by
  have hmain :
      ((bookingCreate body deps).2 = [] ∧ (bookingCreate body deps).1 ≠ .success) ∨
      (∃ a b, bookingCreate body deps = (.unhandledException, [.listBusy a b])) ∨
      (∃ a b, bookingCreate body deps = (.slotConflict, [.listBusy a b])) ∨
      (∃ a b, bookingCreate body deps
          = (.serverError, [.listBusy a b, .createEvent a b, .insertBooking])) := by
    obtain ⟨st, et, nm, em⟩ := body
    rcases st with _ | start
    · exact Or.inl ⟨rfl, by simp [bookingCreate]⟩
    rcases et with _ | endv
    · exact Or.inl ⟨rfl, by simp [bookingCreate]⟩
    rcases nm with _ | name
    · exact Or.inl ⟨rfl, by simp [bookingCreate]⟩
    rcases em with _ | email
    · exact Or.inl ⟨rfl, by simp [bookingCreate]⟩
    simp only [bookingCreate, hce, hins]
    split_ifs with h1 h2 h3 h4
    · exact Or.inl ⟨rfl, by simp⟩
    · exact Or.inl ⟨rfl, by simp⟩
    · exact Or.inl ⟨rfl, by simp⟩
    · exact Or.inl ⟨rfl, by simp⟩
    cases hlb : deps.listBusyResult with
    | error e => exact Or.inr (Or.inl ⟨start, endv, rfl⟩)
    | ok events =>
        dsimp only
        by_cases hlvl : events.length > 0
        · rw [if_pos hlvl]
          exact Or.inr (Or.inr (Or.inl ⟨start, endv, rfl⟩))
        · rw [if_neg hlvl]
          exact Or.inr (Or.inr (Or.inr ⟨start, endv, rfl⟩))
  rcases hmain with ⟨h2, h1⟩ | ⟨a, b, h⟩ | ⟨a, b, h⟩ | ⟨a, b, h⟩
  · exact ⟨h1, by simp [h2], by simp [h2]⟩
  · rw [h]
    exact ⟨by simp, by simp, by simp [List.count_cons]⟩
  · rw [h]
    exact ⟨by simp, by simp, by simp [List.count_cons]⟩
  · rw [h]
    exact ⟨by simp, fun _ => rfl, by simp [List.count_cons]⟩

/-- C9 witness: the concrete insert-failure execution is not a success,
answers with the generic server error, and attempts the insert once. -/
theorem bookingCreate_insertFail_behavior_witness :
    (bookingCreate bodyStd depsInsertFail).1 ≠ .success
    ∧ (bookingCreate bodyStd depsInsertFail).1 = .serverError
    ∧ (bookingCreate bodyStd depsInsertFail).2.count .insertBooking ≤ 1 :=
  ⟨(bookingCreate_insertFail_behavior bodyStd depsInsertFail "evt1" rfl rfl).1,
   (bookingCreate_insertFail_behavior bodyStd depsInsertFail "evt1" rfl rfl).2.1
      (by decide),
   (bookingCreate_insertFail_behavior bodyStd depsInsertFail "evt1" rfl rfl).2.2⟩

/-- C10: confirmed — the booking handler checks none of the tenant's
schedule settings.  A concrete well-formed request for Sunday 03:00–03:07
JST (7 minutes long), i.e. on a weekday the standard tenant disables,
before its `startHour`, and of a length unequal to its slot duration,
with a future start and an empty conflict re-check, reaches the calendar
write and is persisted successfully. -/
theorem bookingCreate_ignores_schedule_rules :
    (bookingCreate bodyOffHours depsAllOk).1 = .success
    ∧ BEffect.createEvent (dateSun - 21600000) (dateSun - 21600000 + 420000)
        ∈ (bookingCreate bodyOffHours depsAllOk).2
    ∧ BEffect.insertBooking ∈ (bookingCreate bodyOffHours depsAllOk).2
    ∧ weekdayUTC (dateSun - 21600000 + stdSettings.timezone (dateSun - 21600000)) = 0
    ∧ (0 : Nat) ∉ stdSettings.availableDays
    ∧ hourUTC (dateSun - 21600000 + stdSettings.timezone (dateSun - 21600000)) = 3
    ∧ stdSettings.startHour = 9
    ∧ (dateSun - 21600000 + 420000) - (dateSun - 21600000)
        ≠ (stdSettings.duration : Int) * 60000
    ∧ depsAllOk.listBusyResult = .ok []
    ∧ depsAllOk.now = 0 ∧ (0 : Int) < dateSun - 21600000 :=
  ⟨rfl, by decide, by decide, by decide, by decide, by decide, rfl, by decide,
   rfl, rfl, by decide⟩

/-- C5: over any AEAD primitive satisfying the spec's §4.1 laws, the
repository's wrappers round-trip (`decrypt (encrypt x key) key = x`),
fail under a key derived from a different secret, and authenticate: a
successful decryption forces the blob's decoded bytes to be exactly
`iv ++ enc(key, iv, plaintext)` for the blob's own first-12-byte iv —
hence any blob whose byte content is not a valid encryption (tampering,
truncation) is rejected rather than decrypted to garbage. -/
theorem encrypt_decrypt_spec {Key : Type} (A : AEAD Key) (m iv : List Nat)
    (secret : String)
    (hm : ∀ x ∈ m, x < 256) (hiv : ∀ x ∈ iv, x < 256) (hlen : iv.length = 12) :
    decrypt A (encrypt A m secret iv) secret = some m
    ∧ (∀ secret', A.derive secret' ≠ A.derive secret →
        decrypt A (encrypt A m secret iv) secret' = none)
    ∧ ∀ blob m', decrypt A blob secret = some m' →
        ∃ combined, base64Decode blob = some combined
          ∧ combined = combined.take 12
              ++ A.enc (A.derive secret) (combined.take 12) m' := by
  have hbytes : ∀ x ∈ iv ++ A.enc (A.derive secret) iv m, x < 256 := by
    intro x hx
    rcases List.mem_append.mp hx with h | h
    · exact hiv x h
    · exact A.enc_bytes _ _ _ hiv hm x h
  have hrt := base64_roundTrip _ hbytes
  have htake : (iv ++ A.enc (A.derive secret) iv m).take 12 = iv := by
    rw [← hlen]
    exact List.take_left _ _
  have hdrop : (iv ++ A.enc (A.derive secret) iv m).drop 12 = A.enc (A.derive secret) iv m := by
    rw [← hlen]
    exact List.drop_left _ _
  refine ⟨?_, ?_, ?_⟩
  · simp only [decrypt, encrypt, hrt, htake, hdrop, A.dec_enc]
  · intro secret' hne
    simp only [decrypt, encrypt, hrt, htake, hdrop]
    exact A.keySep _ _ _ _ (Ne.symm hne)
  · intro blob m' h
    unfold decrypt at h
    cases hdec : base64Decode blob with
    | none => rw [hdec] at h; exact Option.noConfusion h
    | some combined =>
        rw [hdec] at h
        refine ⟨combined, rfl, ?_⟩
        have hauth := A.auth _ _ _ _ h
        conv_lhs => rw [← List.take_append_drop 12 combined]
        rw [hauth]

/-- C5 witness: with a concrete AEAD instance satisfying the laws, a
concrete plaintext round-trips under the right secret and is rejected
under a different secret. -/
theorem encrypt_decrypt_spec_witness :
    decrypt toyAEAD (encrypt toyAEAD msgHello "alpha" ivZero) "alpha" = some msgHello
    ∧ decrypt toyAEAD (encrypt toyAEAD msgHello "alpha" ivZero) "beta" = none :=
  ⟨(encrypt_decrypt_spec toyAEAD msgHello ivZero "alpha"
      (by decide) (by decide) (by decide)).1,
   (encrypt_decrypt_spec toyAEAD msgHello ivZero "alpha"
      (by decide) (by decide) (by decide)).2.1 "beta" (by decide)⟩

end BookMe
